import Mathlib

/-!
# Verification of the BooTTY terminal session/group state machine

Shallow embedding of the terminal session/group model of `vscode-bootty`
(`src/terminal-manager.ts` and the panel webview's `terminal-list.ts`),
together with proofs and refutations of the specification's claims about it.

Conventions of the embedding:
* a JavaScript `Map` is an association list (`alGet`/`alSet`/`alDelete`),
  preserving insertion order as `Map` iteration does;
* a JavaScript `Set<number>` is a duplicate-free `List Nat`;
* `Array.prototype.indexOf` + `splice` removal/insertion are `jsFind`,
  `jsRemove` and `spliceInsert`;
* PTY spawning is external: its success is an explicit `Bool` (or
  `TerminalId → Bool`) parameter, and freshly generated UUIDs
  (`createTerminalId()`) are explicit arguments;
* messages posted to the panel webview are collected in a `List PanelMsg`
  returned next to the new state.
-/

namespace Bootty

abbrev TerminalId := String

/-! ## Association lists modelling JavaScript `Map` -/

/-- `Map.get`: first binding of the key, if any. -/
def alGet {β : Type} : List (String × β) → String → Option β
  | [], _ => none
  | (k', v) :: t, k => if k' = k then some v else alGet t k

/-- `Map.set`: replace in place if the key is bound, else append
(JavaScript `Map` keeps the original insertion position on overwrite). -/
def alSet {β : Type} : List (String × β) → String → β → List (String × β)
  | [], k, v => [(k, v)]
  | (k', v') :: t, k, v =>
      if k' = k then (k, v) :: t else (k', v') :: alSet t k v

/-- `Map.delete`: drop the binding of the key. -/
def alDelete {β : Type} : List (String × β) → String → List (String × β)
  | [], _ => []
  | (k', v') :: t, k => if k' = k then alDelete t k else (k', v') :: alDelete t k

/-! ## JavaScript array helpers -/

/-- `Array.prototype.indexOf`, with "not found" rendered as the length
(the source always guards with `>= 0`, which here becomes `< length`). -/
def jsFind {α : Type} [DecidableEq α] : List α → α → Nat
  | [], _ => 0
  | b :: t, a => if b = a then 0 else jsFind t a + 1

/-- `indexOf` + `splice(i, 1)`: remove the first occurrence, if present. -/
def jsRemove {α : Type} [DecidableEq α] : List α → α → List α
  | [], _ => []
  | b :: t, a => if b = a then t else b :: jsRemove t a

/-- `splice(n, 0, a)`: insert `a` at position `n` (clamped to the end). -/
def spliceInsert {α : Type} (l : List α) (n : Nat) (a : α) : List α :=
  l.take n ++ a :: l.drop n

/-! ## The ordinal ("Terminal N") allocator -/

/-- `Set.add` on the used-indices set. -/
def addIndex (used : List Nat) (n : Nat) : List Nat :=
  if n ∈ used then used else used ++ [n]

/-- `releaseIndex`: `Set.delete` on the used-indices set. -/
def releaseIndex (used : List Nat) (n : Nat) : List Nat :=
  used.filter (fun m => m ≠ n)

/-- Upper bound of a list of naturals, for the loop fuel below. -/
def maxList (l : List Nat) : Nat := l.foldr max 0

/-- The `while (usedIndices.has(index)) index++` loop of `getNextIndex`,
made structural on explicit fuel (the fuel chosen in `getNextIndex` is
enough to reach a free index, see `getNextIndex_spec`). -/
def getNextIndexAux (used : List Nat) : Nat → Nat → Nat
  | 0, i => i
  | fuel + 1, i => if i ∈ used then getNextIndexAux used fuel (i + 1) else i

/-- `getNextIndex`: the smallest positive integer not in `used`.
The source then adds it to the set; see `getNextIndexM`. -/
def getNextIndex (used : List Nat) : Nat :=
  getNextIndexAux used (maxList used + 1) 1

/-- `getNextIndex` as in the source: returns the index and the set with
that index marked used. -/
def getNextIndexM (used : List Nat) : Nat × List Nat :=
  let i := getNextIndex used
  (i, addIndex used i)

/-! ## Data model -/

inductive Location
  | panel
  | editor
deriving DecidableEq, Repr

def Location.isPanel : Location → Bool
  | .panel => true
  | .editor => false

/-- A live terminal session (`TerminalInstance`). Cosmetic fields that no
claim reads (icon, colorKey, color) are omitted; `readyTimeout` is a host
timer handle and is likewise outside the model. -/
structure TerminalInstance where
  location : Location
  ready : Bool
  dataQueue : List String
  title : String
  index : Nat
  currentCwd : Option String := none
deriving DecidableEq, Repr

/-- A split group (`TerminalGroup`): ordered member list. -/
structure TerminalGroup where
  id : String
  terminals : List TerminalId
deriving DecidableEq, Repr

/-- A persisted session descriptor (`PersistedTerminalState`); cosmetic
fields omitted as above. -/
structure PersistedTerminalState where
  id : TerminalId
  index : Option Nat
  userTitle : Option String
  groupId : Option String
deriving DecidableEq, Repr

/-- The mutable state of `TerminalManager`. -/
structure ManagerState where
  terminals : List (TerminalId × TerminalInstance)
  groups : List (String × TerminalGroup)
  terminalToGroup : List (TerminalId × String)
  terminalOrder : List TerminalId
  activeTerminalId : Option TerminalId
  listWidth : Nat
  persistedTerminals : List PersistedTerminalState
  usedIndices : List Nat
deriving DecidableEq, Repr

/-- Outbound messages posted to the panel webview (plus the
`workbench.action.closePanel` command, rendered as a message). -/
inductive PanelMsg
  | addTab (id : TerminalId) (title : String) (makeActive : Bool)
      (insertAfter : Option TerminalId)
  | removeTab (id : TerminalId)
  | activateTab (id : TerminalId)
  | focusTerminal
  | hydrateState (listWidth : Nat)
  | groupCreated (id : String) (terminals : List TerminalId)
  | groupDestroyed (id : String)
  | splitTerminal (newId : TerminalId) (groupId : String)
      (insertAfter : TerminalId)
  | unsplitTerminal (id : TerminalId)
  | joinTerminal (id : TerminalId) (groupId : String)
  | reorderTerminals (ids : List TerminalId)
  | updateCwd (id : TerminalId) (cwd : String)
  | ptyData (id : TerminalId) (data : String)
  | closePanel
deriving DecidableEq, Repr

/-! ## `TerminalManager` operations -/

/-- `getTerminalIds`: the order list restricted to live panel terminals. -/
def getTerminalIds (s : ManagerState) : List TerminalId :=
  s.terminalOrder.filter (fun id =>
    match alGet s.terminals id with
    | some inst => inst.location.isPanel
    | none => false)

/-- `destroyTerminal`: idempotent removal of a session, cascading into
order, group, ordinal and selection cleanup. -/
def destroyTerminal (s : ManagerState) (id : TerminalId) :
    ManagerState × List PanelMsg :=
  match alGet s.terminals id with
  | none => (s, [])
  | some inst =>
    let terminals1 := alDelete s.terminals id
    let used1 := releaseIndex s.usedIndices inst.index
    let order1 := jsRemove s.terminalOrder id
    let groupStep :
        List (String × TerminalGroup) × List (TerminalId × String) × List PanelMsg :=
      match alGet s.terminalToGroup id with
      | none => (s.groups, s.terminalToGroup, [])
      | some gid =>
        match alGet s.groups gid with
        | none => (s.groups, alDelete s.terminalToGroup id, [])
        | some g =>
          let gterms := jsRemove g.terminals id
          if gterms.length ≤ 1 then
            let t2g := gterms.foldl (fun m tid => alDelete m tid) s.terminalToGroup
            (alDelete s.groups gid, alDelete t2g id, [PanelMsg.groupDestroyed gid])
          else
            (alSet s.groups gid { g with terminals := gterms },
             alDelete s.terminalToGroup id,
             [PanelMsg.groupCreated gid gterms])
    let s1 : ManagerState :=
      { s with terminals := terminals1, usedIndices := used1,
               terminalOrder := order1, groups := groupStep.1,
               terminalToGroup := groupStep.2.1 }
    let active1 :=
      if s.activeTerminalId = some id then (getTerminalIds s1).getLast?
      else s.activeTerminalId
    let s2 := { s1 with activeTerminalId := active1 }
    match inst.location with
    | .editor => (s2, groupStep.2.2)
    | .panel =>
      let panelsLeft := s2.terminals.filter (fun p => p.2.location.isPanel)
      let closeMsgs := if panelsLeft.length = 0 then [PanelMsg.closePanel] else []
      (s2, groupStep.2.2 ++ [PanelMsg.removeTab id] ++ closeMsgs)

/-- `handlePtyData`: route a PTY output chunk. The OSC 7 regex sniffing is
abstracted as the `parseCwd` parameter (the OSC 9 host notification has no
model state); `maxQ` is `MAX_DATA_QUEUE_SIZE` from `terminal-utils.ts`. -/
def handlePtyData (parseCwd : String → Option String) (maxQ : Nat)
    (id : TerminalId) (data : String) (s : ManagerState) :
    ManagerState × List PanelMsg :=
  match alGet s.terminals id with
  | none => (s, [])
  | some inst =>
    let inst1 := match parseCwd data with
      | some c => { inst with currentCwd := some c }
      | none => inst
    let cwdMsgs := match parseCwd data with
      | some c => if inst.ready then [PanelMsg.updateCwd id c] else []
      | none => []
    if inst1.ready then
      ({ s with terminals := alSet s.terminals id inst1 },
       cwdMsgs ++ [PanelMsg.ptyData id data])
    else
      let inst2 :=
        if inst1.dataQueue.length < maxQ then
          { inst1 with dataQueue := inst1.dataQueue ++ [data] }
        else inst1
      ({ s with terminals := alSet s.terminals id inst2 }, cwdMsgs)

/-- `createPanelTerminal`: new default panel session. `spawnOk` is the PTY
spawn outcome, `newId` the UUID from `createTerminalId()`. Returns the id
on success, `none` on spawn failure (session not registered). -/
def createPanelTerminal (spawnOk : Bool) (newId : TerminalId)
    (s : ManagerState) : ManagerState × List PanelMsg × Option TerminalId :=
  let im := getNextIndexM s.usedIndices
  let title := "Terminal " ++ toString im.1
  let inst : TerminalInstance :=
    { location := .panel, ready := false, dataQueue := [],
      title := title, index := im.1 }
  let terminals1 := alSet s.terminals newId inst
  if spawnOk then
    ({ s with terminals := terminals1, usedIndices := im.2,
              terminalOrder := s.terminalOrder ++ [newId],
              activeTerminalId := some newId },
     [PanelMsg.addTab newId title true none], some newId)
  else
    ({ s with terminals := alDelete terminals1 newId,
              usedIndices := releaseIndex im.2 im.1 }, [], none)

/-- `createPanelTerminalForSplit`: like `createPanelTerminal` but does not
activate the new tab (`makeActive := false`) and inserts it immediately
after `insertAfter` in the order list (appending if that id is absent). -/
def createPanelTerminalForSplit (spawnOk : Bool) (newId : TerminalId)
    (insertAfter : TerminalId) (s : ManagerState) :
    ManagerState × List PanelMsg × Option TerminalId :=
  let im := getNextIndexM s.usedIndices
  let title := "Terminal " ++ toString im.1
  let inst : TerminalInstance :=
    { location := .panel, ready := false, dataQueue := [],
      title := title, index := im.1 }
  let terminals1 := alSet s.terminals newId inst
  if spawnOk then
    let k := jsFind s.terminalOrder insertAfter
    let order1 :=
      if k < s.terminalOrder.length then spliceInsert s.terminalOrder (k + 1) newId
      else s.terminalOrder ++ [newId]
    ({ s with terminals := terminals1, usedIndices := im.2,
              terminalOrder := order1 },
     [PanelMsg.addTab newId title false (some insertAfter)], some newId)
  else
    ({ s with terminals := alDelete terminals1 newId,
              usedIndices := releaseIndex im.2 im.1 }, [], none)

/-- The shared tail of `handleSplitTerminal` after the group has been
obtained or created: create the split terminal (early return when its
spawn fails), then insert it into the group right after the source and
announce the updated group. -/
def handleSplitTerminalTail (spawnOk : Bool) (newTermId src gid : String)
    (g : TerminalGroup) (s1 : ManagerState) : ManagerState × List PanelMsg :=
  match createPanelTerminalForSplit spawnOk newTermId src s1 with
  | (s2, msgs2, none) => (s2, msgs2)
  | (s2, msgs2, some nid) =>
    let k := jsFind g.terminals src
    let gterms := spliceInsert g.terminals (k + 1) nid
    let s3 :=
      { s2 with groups := alSet s2.groups gid { g with terminals := gterms },
                terminalToGroup := alSet s2.terminalToGroup nid gid }
    (s3, msgs2 ++
      [PanelMsg.groupCreated gid gterms,
       PanelMsg.splitTerminal nid gid src])

/-- `handleSplitTerminal`: split `src` into a group. `freshGroupId` and
`newTermId` stand for the two `createTerminalId()` calls. When the source
is grouped, the source dereferences `groups.get(groupId)!` with a non-null
assertion; the (invariant-breaking) state where that assertion fails would
throw in the source and is rendered here as an early no-op return. -/
def handleSplitTerminal (spawnOk : Bool) (freshGroupId newTermId : String)
    (src : TerminalId) (s : ManagerState) : ManagerState × List PanelMsg :=
  match alGet s.terminals src with
  | none => (s, [])
  | some inst =>
    if inst.location.isPanel = false then (s, [])
    else
      match alGet s.terminalToGroup src with
      | some gid0 =>
        match alGet s.groups gid0 with
        | some g0 => handleSplitTerminalTail spawnOk newTermId src gid0 g0 s
        | none => (s, [])
      | none =>
        let g0 : TerminalGroup := { id := freshGroupId, terminals := [src] }
        handleSplitTerminalTail spawnOk newTermId src freshGroupId g0
          { s with groups := alSet s.groups freshGroupId g0,
                   terminalToGroup := alSet s.terminalToGroup src freshGroupId }

/-- `handleUnsplitTerminal`: remove a terminal from its group, reposition
it right after the group's (new) last member, dissolving the group if it
drops to one member. -/
def handleUnsplitTerminal (tid : TerminalId) (s : ManagerState) :
    ManagerState × List PanelMsg :=
  match alGet s.terminalToGroup tid with
  | none => (s, [])
  | some gid =>
    match alGet s.groups gid with
    | none => (s, [])
    | some g =>
      let gterms := jsRemove g.terminals tid
      let t2g := alDelete s.terminalToGroup tid
      let o1 := jsRemove s.terminalOrder tid
      let order1 :=
        match gterms.getLast? with
        | some lastMember =>
          let k := jsFind o1 lastMember
          if k < o1.length then spliceInsert o1 (k + 1) tid else o1 ++ [tid]
        | none => o1 ++ [tid]
      let groupStep :
          List (String × TerminalGroup) × List (TerminalId × String) × List PanelMsg :=
        if gterms.length ≤ 1 then
          (alDelete s.groups gid,
           gterms.foldl (fun m x => alDelete m x) t2g,
           [PanelMsg.groupDestroyed gid])
        else
          (alSet s.groups gid { g with terminals := gterms }, t2g,
           [PanelMsg.groupCreated gid gterms])
      ({ s with groups := groupStep.1, terminalToGroup := groupStep.2.1,
                terminalOrder := order1 },
       groupStep.2.2 ++
         [PanelMsg.unsplitTerminal tid, PanelMsg.reorderTerminals order1])

/-- `handleUnsplitTerminalWithoutReorder`: the group-only part of unsplit,
used by join (leaves the order list untouched, emits no reorder). -/
def handleUnsplitTerminalWithoutReorder (tid : TerminalId) (s : ManagerState) :
    ManagerState × List PanelMsg :=
  match alGet s.terminalToGroup tid with
  | none => (s, [])
  | some gid =>
    match alGet s.groups gid with
    | none => (s, [])
    | some g =>
      let gterms := jsRemove g.terminals tid
      let t2g := alDelete s.terminalToGroup tid
      if gterms.length ≤ 1 then
        ({ s with groups := alDelete s.groups gid,
                  terminalToGroup := gterms.foldl (fun m x => alDelete m x) t2g },
         [PanelMsg.groupDestroyed gid, PanelMsg.unsplitTerminal tid])
      else
        ({ s with groups := alSet s.groups gid { g with terminals := gterms },
                  terminalToGroup := t2g },
         [PanelMsg.groupCreated gid gterms, PanelMsg.unsplitTerminal tid])

/-- `handleJoinTerminal`: append `tid` to the target group, after an
implicit unsplit-without-reorder from its current group if needed.
Note the source unsplits before checking that the target group exists. -/
def handleJoinTerminal (tid : TerminalId) (target : String)
    (s : ManagerState) : ManagerState × List PanelMsg :=
  match alGet s.terminals tid with
  | none => (s, [])
  | some inst =>
    if inst.location.isPanel = false then (s, [])
    else
      let step1 : ManagerState × List PanelMsg :=
        match alGet s.terminalToGroup tid with
        | some _ => handleUnsplitTerminalWithoutReorder tid s
        | none => (s, [])
      let s1 := step1.1
      match alGet s1.groups target with
      | none => (s1, step1.2)
      | some tg =>
        let tgTerms := tg.terminals ++ [tid]
        let o1 := jsRemove s1.terminalOrder tid
        let order1 :=
          match tg.terminals.getLast? with
          | some lastMember =>
            let k := jsFind o1 lastMember
            if k < o1.length then spliceInsert o1 (k + 1) tid else o1 ++ [tid]
          | none => o1 ++ [tid]
        ({ s1 with groups := alSet s1.groups target { tg with terminals := tgTerms },
                   terminalToGroup := alSet s1.terminalToGroup tid target,
                   terminalOrder := order1 },
         step1.2 ++
           [PanelMsg.groupCreated target tgTerms,
            PanelMsg.joinTerminal tid target,
            PanelMsg.reorderTerminals order1])

/-- `createPanelTerminalForHydration`: recreate one persisted session under
its saved id. On spawn failure the session is dropped (not registered, its
ordinal released) and `none` is returned. -/
def createPanelTerminalForHydration (spawnOk : TerminalId → Bool)
    (p : PersistedTerminalState) (s : ManagerState) :
    ManagerState × List PanelMsg × Option TerminalId :=
  let im : Nat × List Nat :=
    match p.index with
    | some i => (i, s.usedIndices)
    | none => getNextIndexM s.usedIndices
  let title :=
    match p.userTitle with
    | some t => t
    | none => "Terminal " ++ toString im.1
  let inst : TerminalInstance :=
    { location := .panel, ready := false, dataQueue := [],
      title := title, index := im.1 }
  let terminals1 := alSet s.terminals p.id inst
  if spawnOk p.id then
    ({ s with terminals := terminals1, usedIndices := im.2,
              terminalOrder := s.terminalOrder ++ [p.id] },
     [PanelMsg.addTab p.id title false none], some p.id)
  else
    ({ s with terminals := alDelete terminals1 p.id,
              usedIndices := releaseIndex im.2 im.1 }, [], none)

/-- The `for (const persisted of this.persistedTerminals)` replay loop of
`handlePanelReady`, including the `terminalToGroup` rebuild for sessions
that hydrated with a saved `groupId`. -/
def hydrateTerminals (spawnOk : TerminalId → Bool) :
    List PersistedTerminalState → ManagerState → ManagerState × List PanelMsg
  | [], s => (s, [])
  | p :: ps, s =>
    let r1 := createPanelTerminalForHydration spawnOk p s
    let s2 :=
      match r1.2.2, p.groupId with
      | some nid, some gid =>
        { r1.1 with terminalToGroup := alSet r1.1.terminalToGroup nid gid }
      | _, _ => r1.1
    let r3 := hydrateTerminals spawnOk ps s2
    (r3.1, r1.2.1 ++ r3.2)

/-- `handlePanelReady`: hydration on panel connect. Replays persisted
sessions, emits the loaded group table, auto-creates one default session
when no panel terminal exists, else re-activates the saved selection.
`freshId` stands for the `createTerminalId()` of the auto-created session. -/
def handlePanelReady (spawnOk : TerminalId → Bool) (freshId : TerminalId)
    (s : ManagerState) : ManagerState × List PanelMsg :=
  let savedActiveId := s.activeTerminalId
  let r1 := hydrateTerminals spawnOk s.persistedTerminals s
  let groupMsgs :=
    r1.1.groups.map (fun p => PanelMsg.groupCreated p.1 p.2.terminals)
  let s2 := { r1.1 with persistedTerminals := [] }
  let panelCount := (s2.terminals.filter (fun p => p.2.location.isPanel)).length
  if panelCount = 0 then
    let r3 := createPanelTerminal (spawnOk freshId) freshId s2
    (r3.1, PanelMsg.hydrateState s.listWidth :: (r1.2 ++ groupMsgs ++ r3.2.1))
  else
    let activateMsgs :=
      match savedActiveId with
      | some aid =>
        if (alGet s2.terminals aid).isSome then
          [PanelMsg.activateTab aid, PanelMsg.focusTerminal]
        else []
      | none => []
    (s2, PanelMsg.hydrateState s.listWidth :: (r1.2 ++ groupMsgs ++ activateMsgs))

/-! ## The panel webview's `TerminalList` (multi-select version) -/

/-- An entry of the webview terminal list. -/
structure TerminalListItem where
  id : TerminalId
  title : String
  groupId : Option String := none
  hasBell : Bool := false
deriving DecidableEq, Repr

/-- `TerminalListState` of the webview `TerminalList` component.
`selectedTerminalIds` is a JavaScript `Set`, kept in insertion order. -/
structure TerminalListState where
  items : List TerminalListItem
  groups : List TerminalGroup
  listWidth : Nat
  selectedTerminalIds : List TerminalId
  focusedTerminalId : Option TerminalId
  lastSelectedId : Option TerminalId
  activeTerminalId : Option TerminalId
deriving DecidableEq, Repr

/-- Clear the bell flag on the item with the given id, as `setActive` does. -/
def clearBell (items : List TerminalListItem) (id : TerminalId) :
    List TerminalListItem :=
  items.map (fun it => if it.id = id then { it with hasBell := false } else it)

namespace TerminalList

/-- `setSelected`: single selection replacing any multi-select; focus is
cleared unconditionally. -/
def setSelected (s : TerminalListState) (id : Option TerminalId) :
    TerminalListState :=
  match id with
  | some i =>
    { s with selectedTerminalIds := [i], lastSelectedId := some i,
             focusedTerminalId := none }
  | none =>
    { s with selectedTerminalIds := [], lastSelectedId := none,
             focusedTerminalId := none }

/-- `setActive`: external activation. Updates the active terminal, clears
its bell flag, and rewrites the selection to the activated terminal —
without touching `focusedTerminalId`. -/
def setActive (s : TerminalListState) (id : Option TerminalId) :
    TerminalListState :=
  match id with
  | some i =>
    { s with activeTerminalId := some i, items := clearBell s.items i,
             selectedTerminalIds := [i], lastSelectedId := some i }
  | none => { s with activeTerminalId := none }

/-- `setFocused`: set the focused terminal and clear its bell flag. -/
def setFocused (s : TerminalListState) (id : Option TerminalId) :
    TerminalListState :=
  match id with
  | some i => { s with focusedTerminalId := some i, items := clearBell s.items i }
  | none => { s with focusedTerminalId := none }

end TerminalList

/-! ## Concrete states used as test inputs -/

/-- A ready panel instance with the given ordinal, empty data queue. -/
def panelInst (i : Nat) : TerminalInstance :=
  { location := .panel, ready := true, dataQueue := [], title := "T", index := i }

/-- A single standalone panel terminal `A`. -/
def stateA : ManagerState :=
  { terminals := [("A", panelInst 1)], groups := [], terminalToGroup := [],
    terminalOrder := ["A"], activeTerminalId := some "A", listWidth := 180,
    persistedTerminals := [], usedIndices := [1] }

/-- Two panel terminals `A`, `B` forming group `G`. -/
def stateAB : ManagerState :=
  { terminals := [("A", panelInst 1), ("B", panelInst 2)],
    groups := [("G", { id := "G", terminals := ["A", "B"] })],
    terminalToGroup := [("A", "G"), ("B", "G")],
    terminalOrder := ["A", "B"], activeTerminalId := some "A", listWidth := 180,
    persistedTerminals := [], usedIndices := [1, 2] }

/-- Three panel terminals `A`, `B`, `C` forming group `G`, then a
standalone `D`. -/
def stateABC : ManagerState :=
  { terminals := [("A", panelInst 1), ("B", panelInst 2), ("C", panelInst 3),
                  ("D", panelInst 4)],
    groups := [("G", { id := "G", terminals := ["A", "B", "C"] })],
    terminalToGroup := [("A", "G"), ("B", "G"), ("C", "G")],
    terminalOrder := ["A", "B", "C", "D"], activeTerminalId := some "A",
    listWidth := 180, persistedTerminals := [], usedIndices := [1, 2, 3, 4] }

/-- Panel terminals with ordinals `1`, `2`, `5` (ordinals `3` and `4` were
already released), standalone. -/
def stateOrdinals : ManagerState :=
  { terminals := [("A", panelInst 1), ("B", panelInst 2), ("E", panelInst 5)],
    groups := [], terminalToGroup := [], terminalOrder := ["A", "B", "E"],
    activeTerminalId := some "E", listWidth := 180, persistedTerminals := [],
    usedIndices := [1, 2, 5] }

/-- Pre-hydration state as `loadPersistedState` leaves it: two persisted
sessions `A`, `B` in persisted group `G`, nothing live yet. -/
def stateHydration : ManagerState :=
  { terminals := [], groups := [("G", { id := "G", terminals := ["A", "B"] })],
    terminalToGroup := [], terminalOrder := [], activeTerminalId := some "A",
    listWidth := 180,
    persistedTerminals :=
      [{ id := "A", index := some 1, userTitle := none, groupId := some "G" },
       { id := "B", index := some 2, userTitle := none, groupId := some "G" }],
    usedIndices := [1, 2] }

/-- A not-yet-ready panel instance with one buffered chunk. -/
def bufInst : TerminalInstance :=
  { location := .panel, ready := false, dataQueue := ["x"], title := "T",
    index := 1 }

/-- A state with a single not-yet-ready panel terminal `A` holding one
buffered chunk. -/
def stateBuf : ManagerState :=
  { terminals := [("A", bufInst)], groups := [], terminalToGroup := [],
    terminalOrder := ["A"], activeTerminalId := none, listWidth := 180,
    persistedTerminals := [], usedIndices := [1] }

/-- A webview list state with two terminals where `A` is selected and
focused. -/
def tlStateAB : TerminalListState :=
  { items := [{ id := "A", title := "T1" }, { id := "B", title := "T2" }],
    groups := [], listWidth := 180, selectedTerminalIds := ["A"],
    focusedTerminalId := some "A", lastSelectedId := some "A",
    activeTerminalId := some "A" }

/-- The group-membership messages of an outbound message list, with their
payloads (used to compare emitted group descriptors with the group table). -/
def groupCreatedMsgs (ms : List PanelMsg) : List (String × List TerminalId) :=
  ms.filterMap (fun m =>
    match m with
    | PanelMsg.groupCreated gid ts => some (gid, ts)
    | _ => none)

/-- `true` iff no `addTab` message in the list activates its tab
(`makeActive = true`). -/
def noActivatingAddTab (ms : List PanelMsg) : Bool :=
  ms.all (fun m =>
    match m with
    | PanelMsg.addTab _ _ mk _ => !mk
    | _ => true)

/-! ## Helper lemmas: association lists -/

theorem alGet_alSet_self {β : Type} (l : List (String × β)) (k : String) (v : β) :
    alGet (alSet l k v) k = some v := by
  induction l with
  | nil => simp [alGet, alSet]
  | cons p t ih =>
    by_cases h : p.1 = k <;> simp [alGet, alSet, h, ih]

theorem alGet_alSet_ne {β : Type} (l : List (String × β)) (k k' : String) (v : β)
    (h : k' ≠ k) : alGet (alSet l k v) k' = alGet l k' := by
  have hk : ¬ k = k' := fun hh => h hh.symm
  induction l with
  | nil => simp [alGet, alSet, hk]
  | cons p t ih =>
    by_cases hp : p.1 = k
    · have hp' : ¬ p.1 = k' := by rw [hp]; exact hk
      simp [alGet, alSet, hp, hp', hk]
    · by_cases hp' : p.1 = k' <;> simp [alGet, alSet, hp, hp', ih, h]

theorem alGet_alDelete_self {β : Type} (l : List (String × β)) (k : String) :
    alGet (alDelete l k) k = none := by
  induction l with
  | nil => simp [alGet, alDelete]
  | cons p t ih =>
    by_cases h : p.1 = k <;> simp [alGet, alDelete, h, ih]

theorem alGet_alDelete_ne {β : Type} (l : List (String × β)) (k k' : String)
    (h : k' ≠ k) : alGet (alDelete l k) k' = alGet l k' := by
  have hk : ¬ k = k' := fun hh => h hh.symm
  induction l with
  | nil => simp [alDelete]
  | cons p t ih =>
    by_cases hp : p.1 = k
    · have hp' : ¬ p.1 = k' := by rw [hp]; exact hk
      simp [alGet, alDelete, hp, hp', ih, hk]
    · by_cases hp' : p.1 = k' <;> simp [alGet, alDelete, hp, hp', ih, h]

theorem mem_of_alGet {β : Type} {l : List (String × β)} {k : String} {v : β}
    (h : alGet l k = some v) : (k, v) ∈ l := by
  induction l with
  | nil => simp [alGet] at h
  | cons p t ih =>
    obtain ⟨a, b⟩ := p
    by_cases hp : a = k
    · simp only [alGet, hp, if_pos, Option.some.injEq] at h
      subst hp
      subst h
      exact List.mem_cons_self _ _
    · simp only [alGet, hp, if_neg, not_false_iff] at h
      exact List.mem_cons_of_mem _ (ih h)

theorem alSet_of_alGet_none {β : Type} {l : List (String × β)} {k : String}
    (v : β) (h : alGet l k = none) : alSet l k v = l ++ [(k, v)] := by
  induction l with
  | nil => simp [alSet]
  | cons p t ih =>
    by_cases hp : p.1 = k
    · simp [alGet, hp] at h
    · simp [alGet, hp] at h
      simp [alSet, hp, ih h]

theorem alGet_foldl_alDelete {β : Type} (xs : List String)
    (m0 : List (String × β)) (k : String) :
    alGet (xs.foldl (fun m x => alDelete m x) m0) k =
      if k ∈ xs then none else alGet m0 k := by
  induction xs generalizing m0 with
  | nil => simp
  | cons x t ih =>
    by_cases hx : k = x
    · subst hx
      simp [List.foldl_cons, ih, alGet_alDelete_self]
    · by_cases ht : k ∈ t <;>
        simp [List.foldl_cons, ih, alGet_alDelete_ne _ _ _ hx, hx, ht]

theorem filter_alDelete {β : Type} (q : String × β → Bool)
    (l : List (String × β)) (k : String) :
    (alDelete l k).filter q = alDelete (l.filter q) k := by
  induction l with
  | nil => simp [alDelete]
  | cons p t ih =>
    by_cases hp : p.1 = k
    · by_cases hq : q p <;> simp [alDelete, hp, hq, ih]
    · by_cases hq : q p <;> simp [alDelete, List.filter, hp, hq, ih]

/-! ## Helper lemmas: array search and splice -/

theorem jsFind_lt_length {α : Type} [DecidableEq α] {l : List α} {a : α}
    (h : a ∈ l) : jsFind l a < l.length := by
  induction l with
  | nil => simp at h
  | cons b t ih =>
    by_cases hb : b = a
    · simp [jsFind, hb]
    · have : a ∈ t := by
        rcases List.mem_cons.mp h with h1 | h1
        · exact absurd h1.symm hb
        · exact h1
      simp [jsFind, hb, Nat.succ_lt_succ (ih this)]

theorem spliceInsert_after_jsFind {α : Type} [DecidableEq α] {l : List α}
    {a : α} (x : α) (h : a ∈ l) :
    ∃ pre post, l = pre ++ a :: post ∧ a ∉ pre ∧
      spliceInsert l (jsFind l a + 1) x = pre ++ a :: x :: post := by
  induction l with
  | nil => simp at h
  | cons b t ih =>
    by_cases hb : b = a
    · subst hb
      exact ⟨[], t, by simp [spliceInsert, jsFind]⟩
    · have ht : a ∈ t := by
        rcases List.mem_cons.mp h with h1 | h1
        · exact absurd h1.symm hb
        · exact h1
      obtain ⟨pre, post, hdec, hnp, hins⟩ := ih ht
      have hba : ¬ a = b := fun hh => hb hh.symm
      refine ⟨b :: pre, post, by simp [hdec], ?_, ?_⟩
      · simp [hnp, hba]
      · simp only [jsFind, hb, if_neg, not_false_iff, spliceInsert,
          List.take_succ_cons, List.drop_succ_cons, List.cons_append]
        rw [spliceInsert] at hins
        rw [hins]

/-! ## Helper lemmas: the ordinal allocator -/

theorem maxList_ge {l : List Nat} {x : Nat} (h : x ∈ l) : x ≤ maxList l := by
  induction l with
  | nil => simp at h
  | cons b t ih =>
    rcases List.mem_cons.mp h with h1 | h1
    · subst h1; simp [maxList, List.foldr]
    · calc x ≤ maxList t := ih h1
        _ ≤ maxList (b :: t) := by simp [maxList, List.foldr]

theorem getNextIndexAux_spec (used : List Nat) :
    ∀ fuel i, (∃ j, i ≤ j ∧ j < i + fuel ∧ j ∉ used) →
      getNextIndexAux used fuel i ∉ used ∧
        i ≤ getNextIndexAux used fuel i ∧
        ∀ m, i ≤ m → m < getNextIndexAux used fuel i → m ∈ used := by
  intro fuel
  induction fuel with
  | zero =>
    intro i ⟨j, h1, h2, _⟩
    omega
  | succ f ih =>
    intro i ⟨j, h1, h2, h3⟩
    by_cases hi : i ∈ used
    · have hne : j ≠ i := fun hji => h3 (hji ▸ hi)
      have hspec := ih (i + 1) ⟨j, by omega, by omega, h3⟩
      refine ⟨by simpa [getNextIndexAux, hi] using hspec.1,
        by have := hspec.2.1; simp [getNextIndexAux, hi]; omega, ?_⟩
      intro m hm1 hm2
      simp only [getNextIndexAux, hi, if_pos] at hm2
      by_cases hmi : m = i
      · exact hmi ▸ hi
      · exact hspec.2.2 m (by omega) hm2
    · refine ⟨by rw [getNextIndexAux, if_neg hi]; exact hi,
        by simp [getNextIndexAux, hi], ?_⟩
      intro m hm1 hm2
      simp only [getNextIndexAux, hi, if_neg, not_false_iff] at hm2
      omega

theorem getNextIndex_spec (used : List Nat) :
    getNextIndex used ∉ used ∧ 1 ≤ getNextIndex used ∧
      ∀ m, 1 ≤ m → m < getNextIndex used → m ∈ used := by
  have hfree : maxList used + 1 ∉ used := fun h => by
    have := maxList_ge h; omega
  exact getNextIndexAux_spec used (maxList used + 1) 1
    ⟨maxList used + 1, by omega, by omega, hfree⟩

theorem getNextIndex_eq_of (used : List Nat) (n : Nat) (h1 : 1 ≤ n)
    (h2 : n ∉ used) (h3 : ∀ m, 1 ≤ m → m < n → m ∈ used) :
    getNextIndex used = n := by
  obtain ⟨hfree, hpos, hmin⟩ := getNextIndex_spec used
  rcases Nat.lt_trichotomy (getNextIndex used) n with h | h | h
  · exact absurd (h3 _ hpos h) hfree
  · exact h
  · exact absurd (hmin _ h1 h) h2

/-! ## Helper lemmas: terminal creation -/

theorem createPanelTerminalForSplit_active (ok : Bool) (nid after : TerminalId)
    (s : ManagerState) :
    (createPanelTerminalForSplit ok nid after s).1.activeTerminalId =
      s.activeTerminalId := by
  rw [createPanelTerminalForSplit]
  by_cases h : ok <;> simp [h]

theorem createPanelTerminalForSplit_noActivate (ok : Bool)
    (nid after : TerminalId) (s : ManagerState) :
    noActivatingAddTab (createPanelTerminalForSplit ok nid after s).2.1 = true := by
  rw [createPanelTerminalForSplit]
  by_cases h : ok <;> simp [h, noActivatingAddTab]

theorem createPanelTerminal_lookup_ne (ok : Bool) (nid : TerminalId)
    (s : ManagerState) (k : TerminalId) (h : k ≠ nid) :
    alGet (createPanelTerminal ok nid s).1.terminals k = alGet s.terminals k := by
  rw [createPanelTerminal]
  by_cases hok : ok <;>
    simp [hok, alGet_alSet_ne _ _ _ _ h, alGet_alDelete_ne _ _ _ h]

theorem createPanelTerminal_noGroupMsgs (ok : Bool) (nid : TerminalId)
    (s : ManagerState) :
    groupCreatedMsgs (createPanelTerminal ok nid s).2.1 = [] := by
  rw [createPanelTerminal]
  by_cases hok : ok <;> simp [hok, groupCreatedMsgs]

/-! ## Helper lemmas: hydration -/

theorem createPanelTerminalForHydration_groups (ok : TerminalId → Bool)
    (p : PersistedTerminalState) (s : ManagerState) :
    (createPanelTerminalForHydration ok p s).1.groups = s.groups := by
  rw [createPanelTerminalForHydration]
  by_cases h : ok p.id <;> simp [h]

theorem createPanelTerminalForHydration_persisted (ok : TerminalId → Bool)
    (p : PersistedTerminalState) (s : ManagerState) :
    (createPanelTerminalForHydration ok p s).1.persistedTerminals =
      s.persistedTerminals := by
  rw [createPanelTerminalForHydration]
  by_cases h : ok p.id <;> simp [h]

theorem createPanelTerminalForHydration_lookup_self (ok : TerminalId → Bool)
    (p : PersistedTerminalState) (s : ManagerState) :
    (alGet (createPanelTerminalForHydration ok p s).1.terminals p.id).isSome =
      ok p.id := by
  rw [createPanelTerminalForHydration]
  by_cases h : ok p.id <;>
    simp [h, alGet_alSet_self, alGet_alDelete_self]

theorem createPanelTerminalForHydration_lookup_ne (ok : TerminalId → Bool)
    (p : PersistedTerminalState) (s : ManagerState) (k : TerminalId)
    (h : k ≠ p.id) :
    alGet (createPanelTerminalForHydration ok p s).1.terminals k =
      alGet s.terminals k := by
  rw [createPanelTerminalForHydration]
  by_cases hok : ok p.id <;>
    simp [hok, alGet_alSet_ne _ _ _ _ h, alGet_alDelete_ne _ _ _ h]

theorem createPanelTerminalForHydration_noGroupMsgs (ok : TerminalId → Bool)
    (p : PersistedTerminalState) (s : ManagerState) :
    groupCreatedMsgs (createPanelTerminalForHydration ok p s).2.1 = [] := by
  rw [createPanelTerminalForHydration]
  by_cases h : ok p.id <;> simp [h, groupCreatedMsgs]

theorem hydrateTerminals_groups (ok : TerminalId → Bool)
    (ps : List PersistedTerminalState) (s : ManagerState) :
    (hydrateTerminals ok ps s).1.groups = s.groups := by
  induction ps generalizing s with
  | nil => rfl
  | cons p t ih =>
    rw [hydrateTerminals]
    rcases hcr : (createPanelTerminalForHydration ok p s).2.2 with _ | nid <;>
      rcases hg : p.groupId with _ | gid <;>
      simp [hcr, hg, ih, createPanelTerminalForHydration_groups]

theorem hydrateTerminals_persisted (ok : TerminalId → Bool)
    (ps : List PersistedTerminalState) (s : ManagerState) :
    (hydrateTerminals ok ps s).1.persistedTerminals = s.persistedTerminals := by
  induction ps generalizing s with
  | nil => rfl
  | cons p t ih =>
    rw [hydrateTerminals]
    rcases hcr : (createPanelTerminalForHydration ok p s).2.2 with _ | nid <;>
      rcases hg : p.groupId with _ | gid <;>
      simp [hcr, hg, ih, createPanelTerminalForHydration_persisted]

theorem groupCreatedMsgs_append (a b : List PanelMsg) :
    groupCreatedMsgs (a ++ b) = groupCreatedMsgs a ++ groupCreatedMsgs b := by
  simp [groupCreatedMsgs, List.filterMap_append]

theorem hydrateTerminals_noGroupMsgs (ok : TerminalId → Bool)
    (ps : List PersistedTerminalState) (s : ManagerState) :
    groupCreatedMsgs (hydrateTerminals ok ps s).2 = [] := by
  induction ps generalizing s with
  | nil => rfl
  | cons p t ih =>
    rw [hydrateTerminals]
    rcases hcr : (createPanelTerminalForHydration ok p s).2.2 with _ | nid <;>
      rcases hg : p.groupId with _ | gid <;>
      simp [hcr, hg, groupCreatedMsgs_append, ih,
        createPanelTerminalForHydration_noGroupMsgs]

theorem hydrateTerminals_lookup_not_mem (ok : TerminalId → Bool)
    (ps : List PersistedTerminalState) (s : ManagerState) (k : TerminalId)
    (h : k ∉ ps.map (fun p => p.id)) :
    alGet (hydrateTerminals ok ps s).1.terminals k = alGet s.terminals k := by
  induction ps generalizing s with
  | nil => rfl
  | cons p t ih =>
    have hne : k ≠ p.id := by simp at h; exact h.1
    have ht : k ∉ t.map (fun p => p.id) := by simp at h ⊢; exact h.2
    rw [hydrateTerminals]
    rcases hcr : (createPanelTerminalForHydration ok p s).2.2 with _ | nid <;>
      rcases hg : p.groupId with _ | gid <;>
      simp [hcr, hg, ih _ ht, createPanelTerminalForHydration_lookup_ne _ _ _ _ hne]

theorem hydrateTerminals_lookup_mem (ok : TerminalId → Bool)
    (ps : List PersistedTerminalState) (s : ManagerState)
    (hnd : (ps.map (fun p => p.id)).Nodup) (p : PersistedTerminalState)
    (hp : p ∈ ps) :
    (alGet (hydrateTerminals ok ps s).1.terminals p.id).isSome = ok p.id := by
  induction ps generalizing s with
  | nil => simp at hp
  | cons q t ih =>
    rcases List.mem_cons.mp hp with h1 | h1
    · subst h1
      have hnot : p.id ∉ t.map (fun r => r.id) := by
        simp at hnd; intro hc; exact absurd hc (by simpa using hnd.1)
      rw [hydrateTerminals]
      rcases hcr : (createPanelTerminalForHydration ok p s).2.2 with _ | nid <;>
        rcases hg : p.groupId with _ | gid <;>
        simp [hcr, hg, hydrateTerminals_lookup_not_mem _ _ _ _ hnot,
          createPanelTerminalForHydration_lookup_self]
    · have hndt : (t.map (fun r => r.id)).Nodup := by simp at hnd; exact hnd.2
      rw [hydrateTerminals]
      rcases hcr : (createPanelTerminalForHydration ok q s).2.2 with _ | nid <;>
        rcases hg : q.groupId with _ | gid <;>
        simp [hcr, hg, ih _ hndt h1]

theorem mem_addIndex (used : List Nat) (n : Nat) : n ∈ addIndex used n := by
  by_cases h : n ∈ used <;> simp [addIndex, h]

theorem getTerminalIds_eq_nil (st : ManagerState)
    (h : st.terminals.filter (fun p => p.2.location.isPanel) = []) :
    getTerminalIds st = [] := by
  rw [getTerminalIds, List.filter_eq_nil_iff]
  intro a ha
  rcases hg : alGet st.terminals a with _ | i
  · simp
  · have hm := mem_of_alGet hg
    have hni := List.filter_eq_nil_iff.mp h _ hm
    simpa using hni

theorem getLastIds_none (st : ManagerState)
    (h : st.terminals.filter (fun p => p.2.location.isPanel) = []) :
    (getTerminalIds st).getLast? = none := by
  rw [getTerminalIds_eq_nil st h]
  rfl

theorem alDelete_singleton_self {β : Type} (k : String) (v : β) :
    alDelete [(k, v)] k = [] := by simp [alDelete]

theorem groupCreatedMsgs_ofMap (l : List (String × TerminalGroup)) :
    groupCreatedMsgs (l.map (fun p => PanelMsg.groupCreated p.1 p.2.terminals)) =
      l.map (fun p => (p.1, p.2.terminals)) := by
  induction l with
  | nil => rfl
  | cons p t ih =>
    simp only [List.map_cons, groupCreatedMsgs, List.filterMap_cons] at ih ⊢
    simp [ih]

theorem groupCreatedMsgs_cons_hydrate (w : Nat) (ms : List PanelMsg) :
    groupCreatedMsgs (PanelMsg.hydrateState w :: ms) = groupCreatedMsgs ms := rfl

theorem handleSplitTerminalTail_active (ok : Bool) (nt src gid : String)
    (g : TerminalGroup) (s1 : ManagerState) :
    (handleSplitTerminalTail ok nt src gid g s1).1.activeTerminalId =
      s1.activeTerminalId := by
  rw [handleSplitTerminalTail]
  rcases hcr : createPanelTerminalForSplit ok nt src s1 with ⟨s2, msgs2, opt⟩
  have hact := createPanelTerminalForSplit_active ok nt src s1
  rw [hcr] at hact
  rcases opt with _ | nid <;> exact hact

theorem handleSplitTerminalTail_noActivate (ok : Bool) (nt src gid : String)
    (g : TerminalGroup) (s1 : ManagerState) :
    noActivatingAddTab (handleSplitTerminalTail ok nt src gid g s1).2 = true := by
  rw [handleSplitTerminalTail]
  rcases hcr : createPanelTerminalForSplit ok nt src s1 with ⟨s2, msgs2, opt⟩
  have hmsg := createPanelTerminalForSplit_noActivate ok nt src s1
  rw [hcr] at hmsg
  rcases opt with _ | nid
  · exact hmsg
  · simp [noActivatingAddTab, List.all_append] at hmsg ⊢
    exact hmsg

/-! ## Claims -/

/-- **C1.** The ≥2-members group invariant is broken by the code: splitting
a standalone panel terminal when the new terminal's PTY spawn fails leaves
the freshly created one-member group behind in the groups map, so
`handleSplitTerminal` can return with a group of size 1. -/
theorem split_spawn_failure_leaves_singleton_group :
    (handleSplitTerminal false "G" "N" "A" stateA).1.groups.map
        (fun p => (p.1, p.2.terminals.length)) = [("G", 1)] ∧
    stateA.groups = [] := by
  decide

/-- **C4 (counterexample).** `setActive` drives a selection change (the
selection moves from `A` to `B`) yet leaves `focusedTerminalId` untouched,
so not every selection-changing call clears focus. -/
theorem setActive_keeps_focus_counterexample :
    tlStateAB.selectedTerminalIds = ["A"] ∧
    tlStateAB.focusedTerminalId = some "A" ∧
    (TerminalList.setActive tlStateAB (some "B")).selectedTerminalIds = ["B"] ∧
    (TerminalList.setActive tlStateAB (some "B")).focusedTerminalId = some "A" := by
  decide

/-- **C4 (amended).** Every `setSelected` call clears the focused terminal
regardless of the prior state, while `setActive` rewrites the selection
without touching the focused terminal. -/
theorem setSelected_clears_focus_setActive_does_not (s : TerminalListState)
    (id : Option TerminalId) :
    (TerminalList.setSelected s id).focusedTerminalId = none ∧
    (TerminalList.setActive s id).focusedTerminalId = s.focusedTerminalId := by
  cases id <;> exact ⟨rfl, rfl⟩

/-- **C7 (counterexample).** With ordinals `{1, 2, 5}` allocated,
destroying the terminal holding ordinal `5` and then creating a new
terminal with no other allocation in between yields ordinal `3`, not `5`:
the allocate-after-release round-trip of the claim fails whenever a
smaller ordinal is also free. -/
theorem ordinal_roundtrip_counterexample :
    (alGet stateOrdinals.terminals "E").map (fun i => i.index) = some 5 ∧
    (alGet (createPanelTerminal true "F"
        (destroyTerminal stateOrdinals "E").1).1.terminals "F").map
      (fun i => i.index) = some 3 := by
  decide

/-- **C7 (amended).** Ordinal allocation returns the smallest positive
integer not currently allocated and marks it allocated; destroying a
terminal holding ordinal `N` releases exactly `N`, and the follow-up
allocation returns `N` again precisely under the extra proviso that every
positive ordinal below `N` is still allocated at that point. -/
theorem ordinal_allocation_and_roundtrip (s : ManagerState)
    (tid : TerminalId) (inst : TerminalInstance)
    (hget : alGet s.terminals tid = some inst) (hpos : 1 ≤ inst.index)
    (hbelow : ∀ m, 1 ≤ m → m < inst.index → m ∈ s.usedIndices) :
    (∀ used : List Nat,
      getNextIndex used ∉ used ∧ 1 ≤ getNextIndex used ∧
        (∀ m, 1 ≤ m → m < getNextIndex used → m ∈ used) ∧
        getNextIndex used ∈ (getNextIndexM used).2) ∧
    (destroyTerminal s tid).1.usedIndices =
      releaseIndex s.usedIndices inst.index ∧
    getNextIndex (destroyTerminal s tid).1.usedIndices = inst.index := by
  have hrel : (destroyTerminal s tid).1.usedIndices =
      releaseIndex s.usedIndices inst.index := by
    simp only [destroyTerminal, hget]
    rcases hl : inst.location <;> simp [hl]
  refine ⟨?_, hrel, ?_⟩
  · intro used
    obtain ⟨h1, h2, h3⟩ := getNextIndex_spec used
    exact ⟨h1, h2, h3, by simpa [getNextIndexM] using mem_addIndex used _⟩
  · rw [hrel]
    refine getNextIndex_eq_of _ _ hpos ?_ ?_
    · intro hc
      simp [releaseIndex, List.mem_filter] at hc
    · intro m hm1 hm2
      simp only [releaseIndex, List.mem_filter]
      exact ⟨hbelow m hm1 hm2, by simp; omega⟩

/-- **C7 (witness).** Instantiating the amended round-trip: destroying the
terminal with ordinal `2` (all smaller ordinals allocated) makes the next
allocation return `2` again. -/
theorem ordinal_allocation_and_roundtrip_witness :
    getNextIndex (destroyTerminal stateOrdinals "B").1.usedIndices = 2 := by
  have h := ordinal_allocation_and_roundtrip stateOrdinals "B" (panelInst 2)
    (by decide) (by decide)
    (by intro m h1 h2
        have h2' : m < 2 := h2
        have : m = 1 := by omega
        subst this
        decide)
  exact h.2.2

/-- **C8.** While a session is not ready, `handlePtyData` appends the
incoming chunk to its data queue exactly when the queue holds fewer than
`MAX_DATA_QUEUE_SIZE` chunks and otherwise leaves the queue unchanged
(dropping the new chunk, never evicting buffered ones); hence the queue
never grows beyond the cap. -/
theorem handlePtyData_buffering (parseCwd : String → Option String)
    (maxQ : Nat) (id data : String) (s : ManagerState)
    (inst : TerminalInstance) (hget : alGet s.terminals id = some inst)
    (hready : inst.ready = false) :
    ∃ inst2,
      alGet (handlePtyData parseCwd maxQ id data s).1.terminals id = some inst2 ∧
      inst2.dataQueue =
        (if inst.dataQueue.length < maxQ then inst.dataQueue ++ [data]
         else inst.dataQueue) ∧
      (inst.dataQueue.length ≤ maxQ → inst2.dataQueue.length ≤ maxQ) := by
  rcases hc : parseCwd data with _ | c <;>
    by_cases hlen : inst.dataQueue.length < maxQ
  · exact ⟨{ inst with dataQueue := inst.dataQueue ++ [data] },
      by simp [handlePtyData, hget, hc, hready, hlen, alGet_alSet_self],
      by simp [hlen], by simp [hlen]; omega⟩
  · exact ⟨inst,
      by simp [handlePtyData, hget, hc, hready, hlen, alGet_alSet_self],
      by simp [hlen], fun h => h⟩
  · exact ⟨{ inst with dataQueue := inst.dataQueue ++ [data], currentCwd := some c },
      by simp [handlePtyData, hget, hc, hready, hlen, alGet_alSet_self],
      by simp [hlen], by simp [hlen]; omega⟩
  · exact ⟨{ inst with currentCwd := some c },
      by simp [handlePtyData, hget, hc, hready, hlen, alGet_alSet_self],
      by simp [hlen], fun h => h⟩

/-- **C3 (counterexample).** `handleJoinTerminal` targeting a nonexistent
group is not a no-op when the joining terminal is grouped: joining `A`
(member of group `G`) to the nonexistent group `NOPE` dissolves `G`. -/
theorem join_nonexistent_target_mutates_counterexample :
    alGet stateAB.groups "NOPE" = none ∧
    stateAB.groups = [("G", { id := "G", terminals := ["A", "B"] })] ∧
    (handleJoinTerminal "A" "NOPE" stateAB).1.groups = [] := by
  decide

/-- **C3 (amended).** `handleJoinTerminal` with a nonexistent target group
is a complete no-op (state and messages) whenever the joining terminal is
standalone; a grouped joining terminal is first unsplit from its group
before the missing target is detected, so that mutation persists. -/
theorem handleJoinTerminal_noop_when_standalone (tid target : String)
    (s : ManagerState) (h1 : alGet s.terminalToGroup tid = none)
    (h2 : alGet s.groups target = none) :
    handleJoinTerminal tid target s = (s, []) := by
  rw [handleJoinTerminal]
  rcases hga : alGet s.terminals tid with _ | inst
  · rfl
  · by_cases hloc : inst.location.isPanel = false
    · simp [hloc]
    · simp [hloc, h1, h2]

/-- **C3 (witness).** Joining the standalone terminal `A` to a nonexistent
group leaves the state untouched and emits nothing. -/
theorem handleJoinTerminal_noop_witness :
    handleJoinTerminal "A" "NOPE" stateA = (stateA, []) :=
  handleJoinTerminal_noop_when_standalone "A" "NOPE" stateA rfl rfl

/-- **C9.** `handleSplitTerminal` leaves the selection unchanged for every
prior state and source, whether or not the new terminal's spawn succeeds,
and never emits an activating `addTab` (the new terminal is not
auto-selected). -/
theorem handleSplitTerminal_frame (ok : Bool) (fg nt src : String)
    (s : ManagerState) :
    (handleSplitTerminal ok fg nt src s).1.activeTerminalId =
      s.activeTerminalId ∧
    noActivatingAddTab (handleSplitTerminal ok fg nt src s).2 = true := by
  rw [handleSplitTerminal]
  rcases hga : alGet s.terminals src with _ | inst
  · exact ⟨rfl, rfl⟩
  · by_cases hloc : inst.location.isPanel = false
    · simp [hloc, noActivatingAddTab]
    · rcases ht2g : alGet s.terminalToGroup src with _ | gid0
      · simp only [hloc, if_false, ht2g]
        exact ⟨handleSplitTerminalTail_active .., handleSplitTerminalTail_noActivate ..⟩
      · rcases hgr : alGet s.groups gid0 with _ | g0
        · simp [hloc, ht2g, hgr, noActivatingAddTab]
        · simp only [hloc, if_false, ht2g, hgr]
          exact ⟨handleSplitTerminalTail_active .., handleSplitTerminalTail_noActivate ..⟩

/-- **C10.** When the destroyed terminal is the selected one, the
selection moves to the last panel terminal of the remaining order list
(`none` when no panel terminal remains); destroying a non-selected
terminal leaves the selection unchanged. -/
theorem destroyTerminal_selection (s : ManagerState) (id : TerminalId) :
    (s.activeTerminalId = some id → (∃ inst, alGet s.terminals id = some inst) →
       (destroyTerminal s id).1.activeTerminalId =
         (getTerminalIds (destroyTerminal s id).1).getLast?) ∧
    (s.activeTerminalId ≠ some id →
       (destroyTerminal s id).1.activeTerminalId = s.activeTerminalId) := by
  rcases hga : alGet s.terminals id with _ | inst
  · constructor
    · rintro h1 ⟨i, hc⟩
      simp [hga] at hc
    · intro h
      simp [destroyTerminal, hga]
  · constructor
    · rintro h1 _
      rcases hl : inst.location <;>
        simp [destroyTerminal, hga, hl, h1, getTerminalIds]
    · intro h1
      rcases hl : inst.location <;>
        simp [destroyTerminal, hga, hl, h1]

/-- **C10 (witness).** Destroying the selected terminal `A` of the group
`{A, B}` moves the selection to `B`, the last remaining panel terminal;
destroying `B` while `A` is selected keeps `A` selected. -/
theorem destroyTerminal_selection_witness :
    (destroyTerminal stateAB "A").1.activeTerminalId =
      (getTerminalIds (destroyTerminal stateAB "A").1).getLast? ∧
    (destroyTerminal stateAB "B").1.activeTerminalId =
      stateAB.activeTerminalId := by
  constructor
  · exact (destroyTerminal_selection stateAB "A").1 rfl ⟨panelInst 1, rfl⟩
  · exact (destroyTerminal_selection stateAB "B").2 (by decide)

/-- **C8 (witness).** A buffered chunk is appended to a below-cap queue of
a not-ready session. -/
theorem handlePtyData_buffering_witness :
    ∃ inst2,
      alGet (handlePtyData (fun _ => none) 2 "A" "y" stateBuf).1.terminals "A" =
        some inst2 ∧
      inst2.dataQueue =
        (if bufInst.dataQueue.length < 2 then bufInst.dataQueue ++ ["y"]
         else bufInst.dataQueue) ∧
      (bufInst.dataQueue.length ≤ 2 → inst2.dataQueue.length ≤ 2) :=
  handlePtyData_buffering (fun _ => none) 2 "A" "y" stateBuf bufInst rfl rfl

/-- **C6.** `handleUnsplitTerminal` removes the terminal from its group's
member list, repositions it in the order list immediately after the last
remaining member (at that member's position in the order list with the
unsplit terminal removed), and dissolves the group — clearing the
remaining member's group membership — exactly when one member is left. -/
theorem handleUnsplitTerminal_spec (s : ManagerState) (tid gid : String)
    (g : TerminalGroup) (lastM : TerminalId)
    (h1 : alGet s.terminalToGroup tid = some gid)
    (h2 : alGet s.groups gid = some g)
    (hlast : (jsRemove g.terminals tid).getLast? = some lastM)
    (hmem : lastM ∈ jsRemove s.terminalOrder tid) :
    alGet (handleUnsplitTerminal tid s).1.terminalToGroup tid = none ∧
    ((jsRemove g.terminals tid).length = 1 →
      alGet (handleUnsplitTerminal tid s).1.groups gid = none ∧
      ∀ t ∈ jsRemove g.terminals tid,
        alGet (handleUnsplitTerminal tid s).1.terminalToGroup t = none) ∧
    (2 ≤ (jsRemove g.terminals tid).length →
      alGet (handleUnsplitTerminal tid s).1.groups gid =
        some { g with terminals := jsRemove g.terminals tid }) ∧
    (∃ pre post, jsRemove s.terminalOrder tid = pre ++ lastM :: post ∧
      lastM ∉ pre ∧
      (handleUnsplitTerminal tid s).1.terminalOrder =
        pre ++ lastM :: tid :: post) := by
  have hk := jsFind_lt_length hmem
  obtain ⟨pre, post, hdec, hnp, hins⟩ := spliceInsert_after_jsFind tid hmem
  by_cases hlen : (jsRemove g.terminals tid).length ≤ 1
  · refine ⟨?_, ?_, ?_, pre, post, hdec, hnp, ?_⟩
    · simp [handleUnsplitTerminal, h1, h2, hlast, hk, hlen,
        alGet_foldl_alDelete, alGet_alDelete_self]
    · intro _
      constructor
      · simp [handleUnsplitTerminal, h1, h2, hlast, hk, hlen, alGet_alDelete_self]
      · intro t ht
        simp [handleUnsplitTerminal, h1, h2, hlast, hk, hlen,
          alGet_foldl_alDelete, ht]
    · intro hge
      omega
    · simp [handleUnsplitTerminal, h1, h2, hlast, hk, hlen, hins]
  · refine ⟨?_, ?_, ?_, pre, post, hdec, hnp, ?_⟩
    · simp [handleUnsplitTerminal, h1, h2, hlast, hk, hlen, alGet_alDelete_self]
    · intro heq
      omega
    · intro _
      simp [handleUnsplitTerminal, h1, h2, hlast, hk, hlen, alGet_alSet_self]
    · simp [handleUnsplitTerminal, h1, h2, hlast, hk, hlen, hins]

/-- **C6 (witness).** Unsplitting `B` from the group `{A, B, C}` ordered
`[A, B, C, D]`: `B` loses its membership, the group keeps `[A, C]`, and
`B` is re-inserted immediately after `C` (the remaining last member),
giving `[A, C, B, D]`. -/
theorem handleUnsplitTerminal_spec_witness :
    alGet (handleUnsplitTerminal "B" stateABC).1.terminalToGroup "B" = none ∧
    alGet (handleUnsplitTerminal "B" stateABC).1.groups "G" =
      some { id := "G", terminals := ["A", "C"] } ∧
    (∃ pre post, jsRemove stateABC.terminalOrder "B" = pre ++ "C" :: post ∧
      "C" ∉ pre ∧
      (handleUnsplitTerminal "B" stateABC).1.terminalOrder =
        pre ++ "C" :: "B" :: post) := by
  have h := handleUnsplitTerminal_spec stateABC "B" "G"
    { id := "G", terminals := ["A", "B", "C"] } "C" rfl rfl rfl (by decide)
  exact ⟨h.1, h.2.2.1 (by decide), h.2.2.2⟩

/-- **C2 (counterexample).** Destroying the sole panel terminal does not
create any replacement: the model ends with zero sessions, no selection,
and the emitted messages only remove the tab and close the panel. -/
theorem destroy_sole_leaves_zero_sessions :
    (destroyTerminal stateA "A").1.terminals = [] ∧
    (destroyTerminal stateA "A").1.activeTerminalId = none ∧
    (destroyTerminal stateA "A").2 =
      [PanelMsg.removeTab "A", PanelMsg.closePanel] := by
  decide

/-- **C2 (amended).** Destroying the sole panel terminal leaves zero panel
sessions, clears the selection when it pointed at the destroyed terminal,
and requests closing the panel; the replacement default session is only
created at the next `panel-ready`: `handlePanelReady` on a state with no
panel terminal and nothing left to replay creates exactly one fresh panel
terminal, selects it, and activates its tab. -/
theorem destroy_sole_then_panel_ready (s : ManagerState) (id : TerminalId)
    (inst : TerminalInstance)
    (hpanel : s.terminals.filter (fun p => p.2.location.isPanel) = [(id, inst)])
    (hget : alGet s.terminals id = some inst)
    (s' : ManagerState) (fid : TerminalId) (ok : TerminalId → Bool)
    (hpers : s'.persistedTerminals = [])
    (hnopanel : s'.terminals.filter (fun p => p.2.location.isPanel) = [])
    (hfid : alGet s'.terminals fid = none)
    (hok : ok fid = true) :
    (destroyTerminal s id).1.terminals.filter
        (fun p => p.2.location.isPanel) = [] ∧
    PanelMsg.closePanel ∈ (destroyTerminal s id).2 ∧
    (s.activeTerminalId = some id →
      (destroyTerminal s id).1.activeTerminalId = none) ∧
    ((handlePanelReady ok fid s').1.terminals.filter
        (fun p => p.2.location.isPanel)).map (fun p => p.1) = [fid] ∧
    (handlePanelReady ok fid s').1.activeTerminalId = some fid ∧
    (∃ t, PanelMsg.addTab fid t true none ∈ (handlePanelReady ok fid s').2) := by
  have hmemf : (id, inst) ∈ s.terminals.filter (fun p => p.2.location.isPanel) := by
    rw [hpanel]
    exact List.mem_singleton.mpr rfl
  have hploc : inst.location.isPanel = true := (List.mem_filter.mp hmemf).2
  have hloc : inst.location = Location.panel := by
    cases hl : inst.location
    · rfl
    · rw [hl] at hploc
      simp [Location.isPanel] at hploc
  have hdelfilter : (alDelete s.terminals id).filter
      (fun p => p.2.location.isPanel) = [] := by
    rw [filter_alDelete, hpanel, alDelete_singleton_self]
  refine ⟨?_, ?_, ?_, ?_, ?_, ?_⟩
  · simp only [destroyTerminal, hget, hloc]
    exact hdelfilter
  · simp only [destroyTerminal, hget, hloc]
    simp [hdelfilter]
  · intro hact
    simp only [destroyTerminal, hget, hloc]
    rw [if_pos hact]
    exact getLastIds_none _ hdelfilter
  · rw [handlePanelReady, hpers]
    simp only [hydrateTerminals]
    simp only [createPanelTerminal, hok, hnopanel]
    rw [alSet_of_alGet_none _ hfid]
    simp [List.filter_append, Location.isPanel]
    intro a b hab
    have hb := List.filter_eq_nil_iff.mp hnopanel _ hab
    simpa [Location.isPanel] using hb
  · rw [handlePanelReady, hpers]
    simp only [hydrateTerminals]
    simp [createPanelTerminal, hok, hnopanel]
  · rw [handlePanelReady, hpers]
    simp only [hydrateTerminals]
    refine ⟨"Terminal " ++ toString (getNextIndexM s'.usedIndices).1, ?_⟩
    simp [createPanelTerminal, hok, hnopanel]

/-- **C2 (witness).** Destroying the sole terminal `A` and replaying
`panel-ready` on the resulting state: the destroy leaves zero panel
sessions and the panel-ready creates and selects exactly the fresh
terminal `F`. -/
theorem destroy_sole_then_panel_ready_witness :
    (destroyTerminal stateA "A").1.terminals.filter
        (fun p => p.2.location.isPanel) = [] ∧
    PanelMsg.closePanel ∈ (destroyTerminal stateA "A").2 ∧
    (stateA.activeTerminalId = some "A" →
      (destroyTerminal stateA "A").1.activeTerminalId = none) ∧
    ((handlePanelReady (fun _ => true) "F"
        (destroyTerminal stateA "A").1).1.terminals.filter
          (fun p => p.2.location.isPanel)).map (fun p => p.1) = ["F"] ∧
    (handlePanelReady (fun _ => true) "F"
        (destroyTerminal stateA "A").1).1.activeTerminalId = some "F" ∧
    (∃ t, PanelMsg.addTab "F" t true none ∈
      (handlePanelReady (fun _ => true) "F"
        (destroyTerminal stateA "A").1).2) :=
  destroy_sole_then_panel_ready stateA "A" (panelInst 1) (by decide) rfl
    ((destroyTerminal stateA "A").1) "F" (fun _ => true) (by decide)
    (by decide) (by decide) rfl

/-- **C5 (counterexample).** Hydrating persisted sessions `A`, `B` with
persisted group `G = [A, B]` where `B`'s spawn fails: `B` is indeed not
registered, yet the emitted group message still carries the full member
list `[A, B]` — the failed id is not stripped, and the group is emitted
although only one member hydrated. -/
theorem hydration_emits_dead_member_counterexample :
    alGet (handlePanelReady (fun i => i == "A") "F"
        stateHydration).1.terminals "B" = none ∧
    PanelMsg.groupCreated "G" ["A", "B"] ∈
      (handlePanelReady (fun i => i == "A") "F" stateHydration).2 := by
  decide

/-- **C5 (amended).** During hydration a persisted session whose spawn
fails is dropped silently (it ends up unregistered) without blocking the
rest of the replay (each persisted session is registered exactly when its
own spawn succeeds); however, the persisted group descriptors are emitted
verbatim: the group-membership messages are exactly the loaded group
table, with no member stripping and no dissolution of depleted groups. -/
theorem hydration_groups_verbatim (ok : TerminalId → Bool) (fid : TerminalId)
    (s : ManagerState)
    (hnd : (s.persistedTerminals.map (fun p => p.id)).Nodup)
    (hfid : fid ∉ s.persistedTerminals.map (fun p => p.id)) :
    groupCreatedMsgs (handlePanelReady ok fid s).2 =
      s.groups.map (fun p => (p.1, p.2.terminals)) ∧
    ∀ p ∈ s.persistedTerminals,
      (alGet (handlePanelReady ok fid s).1.terminals p.id).isSome = ok p.id := by
  constructor
  · rw [handlePanelReady]
    by_cases hpc : (((hydrateTerminals ok s.persistedTerminals s).1).terminals.filter
        (fun p => p.2.location.isPanel)).length = 0
    · simp only [hpc, if_pos]
      rw [groupCreatedMsgs_cons_hydrate, groupCreatedMsgs_append,
        groupCreatedMsgs_append, hydrateTerminals_noGroupMsgs,
        groupCreatedMsgs_ofMap, hydrateTerminals_groups,
        createPanelTerminal_noGroupMsgs]
      simp
    · simp only [hpc, if_false]
      rw [groupCreatedMsgs_cons_hydrate, groupCreatedMsgs_append,
        groupCreatedMsgs_append, hydrateTerminals_noGroupMsgs,
        groupCreatedMsgs_ofMap, hydrateTerminals_groups]
      rcases hsa : s.activeTerminalId with _ | aid
      · simp [groupCreatedMsgs]
      · by_cases hin : (alGet (hydrateTerminals ok s.persistedTerminals
            s).1.terminals aid).isSome <;>
          simp [hin, groupCreatedMsgs]
  · intro p hp
    have hpid : p.id ≠ fid := by
      intro he
      exact hfid (he ▸ List.mem_map.mpr ⟨p, hp, rfl⟩)
    rw [handlePanelReady]
    by_cases hpc : (((hydrateTerminals ok s.persistedTerminals s).1).terminals.filter
        (fun p => p.2.location.isPanel)).length = 0
    · simp only [hpc, if_pos]
      rw [createPanelTerminal_lookup_ne _ _ _ _ hpid]
      exact hydrateTerminals_lookup_mem ok _ s hnd p hp
    · simp only [hpc, if_false]
      exact hydrateTerminals_lookup_mem ok _ s hnd p hp

/-- **C5 (witness).** Instantiating the amended hydration claim on the
persisted state with group `G = [A, B]` where `B` fails to spawn: the
group message carries `[A, B]` verbatim while `B` stays unregistered. -/
theorem hydration_groups_verbatim_witness :
    groupCreatedMsgs (handlePanelReady (fun i => i == "A") "F"
        stateHydration).2 = [("G", ["A", "B"])] ∧
    (alGet (handlePanelReady (fun i => i == "A") "F"
        stateHydration).1.terminals "B").isSome = false := by
  have h := hydration_groups_verbatim (fun i => i == "A") "F" stateHydration
    (by decide) (by decide)
  refine ⟨h.1, ?_⟩
  have hb := h.2 ⟨"B", some 2, none, some "G"⟩ (by decide)
  simpa using hb

end Bootty
